import Mathlib

/-!
Verification of the interruptible SQLite REPL (src/sqlite3-cli.js).

The development shallowly embeds the concurrency core of the program:
the backpressure-aware `write` helper, the re-armable interrupter
(`createInterrupter`), the readline async iterator (the line source),
the statement runner (`runStatement`) and the main loop (`start`).

The storage engine is an external collaborator: its responses (prepare
outcome, the stream of row-fetch outcomes, the finalize outcome) are
inputs to the model, and the moments at which the interrupter wins a
`Promise.race` are given by an explicit schedule.  Stateful JS control
flow becomes explicit state passing; every definition is executable.
-/

/-- Scalar values appearing in a result row (column values). -/
inductive JValue where
  | jnull
  | jint (n : Int)
  | jstr (s : String)
  | jbool (b : Bool)
deriving DecidableEq

/-- A result row: an ordered mapping from column name to scalar value,
in the key order the engine returns. -/
abbrev Row := List (String × JValue)

/-- Escape of one character inside a JSON string literal, as
JSON.stringify performs it for the characters we model. -/
def jsonEscapeChar (c : Char) : String :=
  if c = '"' then "\\\""
  else if c = '\\' then "\\\\"
  else if c = '\n' then "\\n"
  else if c = '\r' then "\\r"
  else if c = '\t' then "\\t"
  else String.singleton c

/-- JSON string-body escaping. -/
def jsonEscape (s : String) : String :=
  String.join (s.toList.map jsonEscapeChar)

/-- A JSON string literal, quotes included. -/
def jsonString (s : String) : String :=
  "\"" ++ jsonEscape s ++ "\""

/-- Serialization of one scalar, following JSON.stringify. -/
def stringifyValue : JValue → String
  | JValue.jnull => "null"
  | JValue.jint n => toString n
  | JValue.jstr s => jsonString s
  | JValue.jbool b => if b then "true" else "false"

/-- JSON.stringify of a row object, keys in the order returned by the
engine (stable key order). -/
def stringifyRow (r : Row) : String :=
  "\x7b" ++ String.intercalate ","
    (r.map fun kv => jsonString kv.1 ++ ":" ++ stringifyValue kv.2) ++ "\x7d"

/-- One output line for a row: the serialization followed by a newline,
exactly the two chunks passed to `write(this.output, ...)`. -/
def rowLine (r : Row) : String :=
  stringifyRow r ++ "\n"

/-- Outcome of one `stmt.get` callback from the storage collaborator:
a row, cursor exhaustion (`row` is undefined), or a query error. -/
inductive FetchResult where
  | row (r : Row)
  | done
  | fetchError (e : String)
deriving DecidableEq

/-- The environment of one `runStatement` invocation: the collaborator's
responses and the interruption schedule.  `prepare = some e` means
`db.prepare` failed with message `e`; `fetches` lists the outcomes of the
successive `getRow()` calls; `interruptAt = some k` means the interrupter
wins the k-th `Promise.race` (i.e. after k rows were delivered);
`finalizeError = some e` means `stmt.finalize` fails with `e`. -/
structure StmtEnv where
  prepare : Option String
  fetches : List FetchResult
  interruptAt : Option Nat
  finalizeError : Option String
deriving DecidableEq

/-- Errors a `runStatement` invocation can reject with. -/
inductive RunError where
  | prepareError (e : String)
  | queryError (e : String)
  | interrupted
  | finalizeError (e : String)
deriving DecidableEq

/-- Observable result of a `runStatement` invocation: the lines written
to the output sink, the number of `stmt.finalize` calls, and the
rejection (if any) propagated to the caller. -/
structure RunResult where
  outputLines : List String
  finalizeCalls : Nat
  result : Option RunError
deriving DecidableEq

/-- Events of the statement runner, in program order: `fetchIssued i` is
the call of the i-th `getRow()`, `rowDelivered i` the resolution of the
race with row i, `writeStart i`/`writeEnd i` bracket the awaited
`write` of row i, `interrupted` the interrupter winning a race, and
`finalizeCall` the single `stmt.finalize` call of the finally block. -/
inductive Ev where
  | fetchIssued (i : Nat)
  | rowDelivered (i : Nat)
  | writeStart (i : Nat)
  | writeEnd (i : Nat)
  | interrupted
  | finalizeCall
deriving DecidableEq

/-- The streaming loop of `runStatement` (the while over
`Promise.race([nextRow, this.interrupter.receiver])`), from race index
`i` on, given the remaining fetch outcomes.  Returns the emitted events,
the output lines, and the pending error carried out of the loop (`none`
for normal cursor exhaustion); `none` overall when the schedule leaves
the loop blocked on a fetch that never resolves. -/
def runLoop (intr : Option Nat) : Nat → List FetchResult →
    Option (List Ev × List String × Option RunError)
  | i, [] =>
    if intr = some i then
      some ([Ev.interrupted], [], some RunError.interrupted)
    else none
  | i, f :: rest =>
    if intr = some i then
      some ([Ev.interrupted], [], some RunError.interrupted)
    else
      match f with
      | FetchResult.fetchError e => some ([], [], some (RunError.queryError e))
      | FetchResult.done => some ([], [], none)
      | FetchResult.row r =>
        match runLoop intr (i + 1) rest with
        | none => none
        | some (tr, outs, res) =>
          some (Ev.rowDelivered i :: Ev.fetchIssued (i + 1) ::
                  Ev.writeStart i :: Ev.writeEnd i :: tr,
                rowLine r :: outs, res)

/-- `SQLite3CLI.runStatement`, with its event trace.  Prepare failure
rejects before the try block, so nothing is streamed and finalize is not
called.  On prepare success the first `getRow()` is issued, the
streaming loop runs, and the finally block calls `stmt.finalize` once;
a finalize rejection, being an `await` of a rejected promise inside
`finally`, replaces whatever error was pending (JavaScript try/finally
semantics). -/
def runStatementT (env : StmtEnv) : Option (List Ev × RunResult) :=
  match env.prepare with
  | some e =>
    some ([], { outputLines := [], finalizeCalls := 0,
                result := some (RunError.prepareError e) })
  | none =>
    match runLoop env.interruptAt 0 env.fetches with
    | none => none
    | some (tr, outs, pending) =>
      some (Ev.fetchIssued 0 :: tr ++ [Ev.finalizeCall],
            { outputLines := outs, finalizeCalls := 1,
              result :=
                match env.finalizeError with
                | some e => some (RunError.finalizeError e)
                | none => pending })

/-- `runStatement` restricted to its observable result. -/
def runStatement (env : StmtEnv) : Option RunResult :=
  (runStatementT env).map Prod.snd

/-- The event trace of a normal (uninterrupted, error-free) stream of
rows starting at race index `i`: per row, delivery, issue of the next
fetch, then the write of the delivered row. -/
def streamTrace : Nat → List Row → List Ev
  | _, [] => []
  | i, _ :: rest =>
    Ev.rowDelivered i :: Ev.fetchIssued (i + 1) ::
      Ev.writeStart i :: Ev.writeEnd i :: streamTrace (i + 1) rest

/-- Environment of a statement interrupted at race `k` with the engine
holding `rows` followed by cursor exhaustion. -/
def interruptedEnv (rows : List Row) (k : Nat) : StmtEnv :=
  { prepare := none,
    fetches := rows.map FetchResult.row ++ [FetchResult.done],
    interruptAt := some k,
    finalizeError := none }

/-- Environment of a statement that streams `rows` to exhaustion with no
interruption and no errors. -/
def plainEnv (rows : List Row) : StmtEnv :=
  { prepare := none,
    fetches := rows.map FetchResult.row ++ [FetchResult.done],
    interruptAt := none,
    finalizeError := none }

/-- State of `createInterrupter`: promises (slots) are numbered; the
channel holds the number of the currently installed receiver promise and
the list of slots whose promise has been rejected, in fire order. -/
structure InterrupterState where
  currentSlot : Nat
  fired : List Nat
deriving DecidableEq

/-- `interrupter.interrupt(reason)`: in one synchronous step,
`newChannel()` installs a fresh receiver promise and then `reject`
rejects the previously current one. -/
def interrupt (s : InterrupterState) : InterrupterState :=
  { currentSlot := s.currentSlot + 1, fired := s.fired ++ [s.currentSlot] }

/-- The freshly created interrupter: slot 0 installed, nothing fired. -/
def interrupterInit : InterrupterState :=
  { currentSlot := 0, fired := [] }

/-- Atomic steps of the idle main loop interleaved with SIGINT
deliveries: `fire` runs `interrupt()`; `loopResume` runs the loop's
continuation, which (when the slot its race captured has been rejected)
reports one diagnostic and re-races, capturing the receiver installed at
that moment. -/
inductive IdleStep where
  | fire
  | loopResume
deriving DecidableEq

/-- State of the idle main loop: the interrupter, the slot captured by
the `Promise.race` the loop is awaiting, and the number of diagnostic
lines written so far. -/
structure IdleState where
  intr : InterrupterState
  awaiting : Nat
  diags : Nat
deriving DecidableEq

/-- One step of the idle-loop interleaving. -/
def idleStep (st : IdleState) : IdleStep → IdleState
  | IdleStep.fire => { st with intr := interrupt st.intr }
  | IdleStep.loopResume =>
    if st.awaiting ∈ st.intr.fired then
      { intr := st.intr, awaiting := st.intr.currentSlot,
        diags := st.diags + 1 }
    else st

/-- Run of the idle main loop under a schedule of steps. -/
def runIdle : IdleState → List IdleStep → IdleState
  | st, [] => st
  | st, s :: rest => runIdle (idleStep st s) rest

/-- The loop freshly idle: awaiting the race that captured slot 0. -/
def idleInit : IdleState :=
  { intr := interrupterInit, awaiting := 0, diags := 0 }

/-- State of `createReadlineAsyncIterator`: the internal buffer of
lines (with `none` for a buffered close), the `done` flag declared by
the source (`let done = false`), and a count of medium re-invocations
(`rl.prompt()` / `rl.resume()`) performed when blocking on a new line. -/
structure RlIterState where
  buffer : List (Option String)
  done : Bool
  resumeCount : Nat
deriving DecidableEq

/-- Result of one `next()` call: a line, the end-of-input marker, or
blocking on input that may never come. -/
inductive NextResult where
  | yield (s : String)
  | eoi
  | blocked
deriving DecidableEq

/-- The `line`/`close` handler when no `nextLine` is pending: push onto
the buffer (`push`). -/
def handleEvent (st : RlIterState) (line : Option String) : RlIterState :=
  { st with buffer := st.buffer ++ [line] }

/-- `next()` of the readline async iterator with the medium quiescent
(no further events will arrive): return immediately if `done` is set;
otherwise `nextLine()` shifts the buffer if non-empty, else prompts,
resumes the medium and blocks awaiting the resolver.  Faithful to the
source, no branch ever assigns `done := true`. -/
def iterNext (st : RlIterState) : NextResult × RlIterState :=
  if st.done then (NextResult.eoi, st)
  else
    match st.buffer with
    | some s :: rest => (NextResult.yield s, { st with buffer := rest })
    | none :: rest => (NextResult.eoi, { st with buffer := rest })
    | [] => (NextResult.blocked, { st with resumeCount := st.resumeCount + 1 })

/-- Iterator state after the medium emitted its close event with no
`nextLine` pending: a `null` line is buffered. -/
def iterAfterClose : RlIterState :=
  handleEvent { buffer := [], done := false, resumeCount := 0 } none

/-- The sink's behaviour for one chunk handed to `out.write`: `ok` is
the synchronous return value (`false` requests a drain wait), `err`
whether the completion callback is invoked with an error. -/
structure ChunkResp where
  ok : Bool
  err : Bool
deriving DecidableEq

/-- Observable outcome of one `write(out, data, callback)` call. -/
structure WriteOutcome where
  submitted : Nat
  drainWaits : Nat
  callbackErrs : Nat
  rejected : Bool
deriving DecidableEq

/-- The `write` helper: submit each chunk in order; when the sink
signals backpressure, await its drain event before the next chunk.  No
statement in the body rejects the returned promise; sink errors reach
the per-chunk callback only. -/
def writeRun : List String → List ChunkResp → WriteOutcome
  | [], _ => { submitted := 0, drainWaits := 0, callbackErrs := 0, rejected := false }
  | _ :: _, [] => { submitted := 0, drainWaits := 0, callbackErrs := 0, rejected := false }
  | _ :: cs, r :: rs =>
    let rest := writeRun cs rs
    { submitted := rest.submitted + 1,
      drainWaits := rest.drainWaits + (if r.ok then 0 else 1),
      callbackErrs := rest.callbackErrs + (if r.err then 1 else 0),
      rejected := false }

/-- The callback every call site passes to `write`: on error, fire the
interrupter; otherwise do nothing. -/
def writeErrCallback (e : Bool) (s : InterrupterState) : InterrupterState :=
  if e then interrupt s else s

/-- One iteration-level input to the main loop: end-of-input from the
line source, the interrupter winning the line race, or a line of text
(with, for a non-blank line, the collaborator environment of its
statement execution). -/
inductive LoopEvent where
  | eof
  | interruptedAtRead
  | line (text : String) (stmt : StmtEnv)
deriving DecidableEq

/-- The blank-line test `line.trim() == ""` of the main loop: a line
trims to the empty string exactly when every character is whitespace. -/
def isBlankLine (s : String) : Bool :=
  s.data.all Char.isWhitespace

/-- Rendering of a caught error by `util.inspect` onto the error sink;
the claims depend only on one diagnostic line being written, not on the
exact text. -/
def inspectError : RunError → String
  | RunError.prepareError e => "Error: " ++ e
  | RunError.queryError e => "Error: " ++ e
  | RunError.interrupted => "Error: interrupted"
  | RunError.finalizeError e => "Error: " ++ e

/-- The `while (true)` of `SQLite3CLI.start`: returns the lines written
to the output sink and to the error sink once the loop breaks on
end-of-input; `none` when the loop is still awaiting input (events
exhausted without end-of-input) or blocked inside a statement.  Blank
lines are skipped; a rejected race while reading is caught by the outer
catch, a `runStatement` rejection by the inner catch; both write one
diagnostic and continue. -/
def startLoop : List LoopEvent → Option (List String × List String)
  | [] => none
  | LoopEvent.eof :: _ => some ([], [])
  | LoopEvent.interruptedAtRead :: rest =>
    (startLoop rest).map fun q =>
      (q.1, (inspectError RunError.interrupted ++ "\n") :: q.2)
  | LoopEvent.line s stmt :: rest =>
    if isBlankLine s then startLoop rest
    else
      match runStatementT stmt with
      | none => none
      | some (_, r) =>
        match r.result with
        | none => (startLoop rest).map fun q => (r.outputLines ++ q.1, q.2)
        | some err =>
          (startLoop rest).map fun q =>
            (r.outputLines ++ q.1, (inspectError err ++ "\n") :: q.2)

/-- Shutdown events of `start`. -/
inductive SEv where
  | loopExited
  | closeIssued
  | closeCompleted
  | startReturned
deriving DecidableEq

/-- Shutdown order of the first revision's `start`: the finally block
awaits the promise wrapping `db.close`, so the close completes before
`start` returns. -/
def startShutdownRev1 : List SEv :=
  [SEv.loopExited, SEv.closeIssued, SEv.closeCompleted, SEv.startReturned]

/-- Shutdown order of the second revision's `start`: the finally block
builds the promise wrapping `db.close` (issuing the close) but does not
await it, so `start` returns before the close completes. -/
def startShutdownRev2 : List SEv :=
  [SEv.loopExited, SEv.closeIssued, SEv.startReturned, SEv.closeCompleted]

/-- Shutdown trace of the first revision's `start`, defined whenever the
loop terminates. -/
def startTraceRev1 (events : List LoopEvent) : Option (List SEv) :=
  (startLoop events).map fun _ => startShutdownRev1

/-- Shutdown trace of the second revision's `start`. -/
def startTraceRev2 (events : List LoopEvent) : Option (List SEv) :=
  (startLoop events).map fun _ => startShutdownRev2

/-- Index of the first occurrence of `e` in `tr`. -/
def idxOf {α : Type} [DecidableEq α] (tr : List α) (e : α) : Option Nat :=
  tr.findIdx? (fun x => decide (x = e))

/-- Whether `a` occurs in `tr` strictly before `b` does. -/
def evBefore {α : Type} [DecidableEq α] (tr : List α) (a b : α) : Bool :=
  match idxOf tr a, idxOf tr b with
  | some i, some j => decide (i < j)
  | _, _ => false

/-- Number of occurrences of an event in a trace. -/
def countEv (e : Ev) : List Ev → Nat
  | [] => 0
  | x :: rest => (if x = e then 1 else 0) + countEv e rest

/-- Last event of a trace. -/
def lastEv : List Ev → Option Ev
  | [] => none
  | [e] => some e
  | _ :: e :: rest => lastEv (e :: rest)

/-- Number of occurrences of a shutdown event in a shutdown trace. -/
def countSEv (e : SEv) : List SEv → Nat
  | [] => 0
  | x :: rest => (if x = e then 1 else 0) + countSEv e rest

/-- Collaborator environment of a statement whose preparation fails. -/
def prepFailEnv : StmtEnv :=
  { prepare := some "SQLITE_ERROR: near bad: syntax error", fetches := [],
    interruptAt := none, finalizeError := none }

/-- Collaborator environment with a query error mid-stream and a
failing finalize. -/
def rowErrorFinalizeErrorEnv : StmtEnv :=
  { prepare := none, fetches := [FetchResult.fetchError "SQLITE_ERROR"],
    interruptAt := none, finalizeError := some "SQLITE_MISUSE" }

lemma countEv_append (e : Ev) (l1 l2 : List Ev) :
    countEv e (l1 ++ l2) = countEv e l1 + countEv e l2 := by
  induction l1 with
  | nil => simp [countEv]
  | cons x rest ih =>
    simp only [List.cons_append, countEv, List.append_eq, ih]
    omega

lemma countEv_notin (e : Ev) (l : List Ev) (h : e ∉ l) : countEv e l = 0 := by
  induction l with
  | nil => rfl
  | cons x rest ih =>
    simp only [List.mem_cons, not_or] at h
    obtain ⟨h1, h2⟩ := h
    simp only [countEv]
    rw [if_neg (fun hx => h1 hx.symm), ih h2]

lemma lastEv_concat (e : Ev) : ∀ l : List Ev, lastEv (l ++ [e]) = some e := by
  intro l
  induction l with
  | nil => rfl
  | cons x rest ih =>
    cases rest with
    | nil => rfl
    | cons y t => exact ih

lemma runLoop_no_finalize (fetches : List FetchResult) :
    ∀ (intr : Option Nat) (i : Nat) tr outs pend,
      runLoop intr i fetches = some (tr, outs, pend) → Ev.finalizeCall ∉ tr := by
  induction fetches with
  | nil =>
    intro intr i tr outs pend h
    simp only [runLoop] at h
    split at h
    · simp only [Option.some.injEq, Prod.mk.injEq] at h
      obtain ⟨htr, -⟩ := h
      subst htr
      simp
    · exact absurd h (by simp)
  | cons f rest ih =>
    intro intr i tr outs pend h
    simp only [runLoop] at h
    split at h
    · simp only [Option.some.injEq, Prod.mk.injEq] at h
      obtain ⟨htr, -⟩ := h
      subst htr
      simp
    · cases f with
      | fetchError e =>
        simp only [Option.some.injEq, Prod.mk.injEq] at h
        obtain ⟨htr, -⟩ := h
        subst htr
        simp
      | done =>
        simp only [Option.some.injEq, Prod.mk.injEq] at h
        obtain ⟨htr, -⟩ := h
        subst htr
        simp
      | row r =>
        simp only at h
        cases hrec : runLoop intr (i + 1) rest with
        | none => rw [hrec] at h; exact absurd h (by simp)
        | some v =>
          obtain ⟨tr2, outs2, res2⟩ := v
          rw [hrec] at h
          simp only [Option.some.injEq, Prod.mk.injEq] at h
          obtain ⟨htr, -⟩ := h
          subst htr
          have hnotin := ih intr (i + 1) tr2 outs2 res2 hrec
          simp [hnotin]

lemma runLoop_complete (rows : List Row) :
    ∀ i : Nat,
      runLoop none i (rows.map FetchResult.row ++ [FetchResult.done]) =
        some (streamTrace i rows, rows.map rowLine, none) := by
  induction rows with
  | nil => intro i; simp [runLoop, streamTrace]
  | cons r rest ih =>
    intro i
    simp only [List.map_cons, List.cons_append, runLoop, streamTrace,
      List.append_eq]
    rw [ih (i + 1)]
    simp

lemma runLoop_race_interrupted (i : Nat) (l : List FetchResult) :
    runLoop (some i) i l =
      some ([Ev.interrupted], [], some RunError.interrupted) := by
  cases l <;> simp [runLoop]

lemma runLoop_intr (k : Nat) :
    ∀ (rows : List Row) (i : Nat) (tail : List FetchResult),
      k ≤ rows.length →
      ∃ tr, runLoop (some (i + k)) i (rows.map FetchResult.row ++ tail) =
        some (tr, (rows.take k).map rowLine, some RunError.interrupted) := by
  induction k with
  | zero =>
    intro rows i tail _
    exact ⟨[Ev.interrupted], by simpa using runLoop_race_interrupted i _⟩
  | succ k ih =>
    intro rows i tail hk
    cases rows with
    | nil => simp at hk
    | cons r rest =>
      have hk2 : k ≤ rest.length := Nat.le_of_succ_le_succ (by simpa using hk)
      have heq : i + (k + 1) = (i + 1) + k := by omega
      obtain ⟨tr2, htr2⟩ := ih rest (i + 1) tail hk2
      refine ⟨Ev.rowDelivered i :: Ev.fetchIssued (i + 1) ::
        Ev.writeStart i :: Ev.writeEnd i :: tr2, ?_⟩
      simp only [List.map_cons, List.cons_append, runLoop, List.append_eq]
      rw [if_neg (by intro hcontra; simp at hcontra)]
      rw [heq, htr2]
      simp [List.take_succ_cons]

lemma runStatement_interruptedEnv (rows : List Row) (k : Nat)
    (hk : k ≤ rows.length) :
    runStatement (interruptedEnv rows k) =
      some { outputLines := (rows.take k).map rowLine, finalizeCalls := 1,
             result := some RunError.interrupted } := by
  obtain ⟨tr, htr⟩ := runLoop_intr k rows 0 [FetchResult.done] hk
  simp only [Nat.zero_add] at htr
  simp [runStatement, runStatementT, interruptedEnv, htr]

lemma runStatementT_interruptedEnv (rows : List Row) (k : Nat)
    (hk : k ≤ rows.length) :
    ∃ tr, runStatementT (interruptedEnv rows k) =
      some (tr, { outputLines := (rows.take k).map rowLine, finalizeCalls := 1,
                  result := some RunError.interrupted }) := by
  obtain ⟨tr, htr⟩ := runLoop_intr k rows 0 [FetchResult.done] hk
  simp only [Nat.zero_add] at htr
  refine ⟨Ev.fetchIssued 0 :: tr ++ [Ev.finalizeCall], ?_⟩
  simp [runStatementT, interruptedEnv, htr]

lemma runStatementT_plainEnv (rows : List Row) :
    runStatementT (plainEnv rows) =
      some (Ev.fetchIssued 0 :: streamTrace 0 rows ++ [Ev.finalizeCall],
            { outputLines := rows.map rowLine, finalizeCalls := 1,
              result := none }) := by
  simp [runStatementT, plainEnv, runLoop_complete rows 0]

lemma startLoop_some_eof (events : List LoopEvent) :
    ∀ p, startLoop events = some p → LoopEvent.eof ∈ events := by
  induction events with
  | nil => intro p h; exact absurd h (by simp [startLoop])
  | cons ev rest ih =>
    intro p h
    cases ev with
    | eof => exact List.mem_cons_self _ _
    | interruptedAtRead =>
      simp only [startLoop, Option.map_eq_some'] at h
      obtain ⟨q, hq, -⟩ := h
      exact List.mem_cons_of_mem _ (ih q hq)
    | line s stmt =>
      simp only [startLoop] at h
      split at h
      · exact List.mem_cons_of_mem _ (ih p h)
      · cases hrs : runStatementT stmt with
        | none => rw [hrs] at h; exact absurd h (by simp)
        | some v =>
          obtain ⟨tr, r⟩ := v
          rw [hrs] at h
          simp only at h
          cases hres : r.result with
          | none =>
            rw [hres] at h
            simp only [Option.map_eq_some'] at h
            obtain ⟨q, hq, -⟩ := h
            exact List.mem_cons_of_mem _ (ih q hq)
          | some err =>
            rw [hres] at h
            simp only [Option.map_eq_some'] at h
            obtain ⟨q, hq, -⟩ := h
            exact List.mem_cons_of_mem _ (ih q hq)

lemma startLoop_line_error (s : String) (stmt : StmtEnv) (rest : List LoopEvent)
    (tr : List Ev) (r : RunResult) (err : RunError)
    (hs : isBlankLine s = false) (hrs : runStatementT stmt = some (tr, r))
    (hres : r.result = some err) :
    startLoop (LoopEvent.line s stmt :: rest) =
      (startLoop rest).map fun q =>
        (r.outputLines ++ q.1, (inspectError err ++ "\n") :: q.2) := by
  simp [startLoop, hrs, hres, hs]

lemma writeRun_rejected (chunks : List String) (resps : List ChunkResp) :
    (writeRun chunks resps).rejected = false := by
  cases chunks with
  | nil => rfl
  | cons c cs =>
    cases resps with
    | nil => rfl
    | cons r rs => rfl

lemma writeRun_submitted (chunks : List String) :
    ∀ resps : List ChunkResp, resps.length = chunks.length →
      (writeRun chunks resps).submitted = chunks.length := by
  induction chunks with
  | nil => intro resps _; rfl
  | cons c cs ih =>
    intro resps h
    cases resps with
    | nil => simp at h
    | cons r rs =>
      simp only [List.length_cons] at h
      have heq : (writeRun (c :: cs) (r :: rs)).submitted =
          (writeRun cs rs).submitted + 1 := rfl
      rw [heq, ih rs (by omega)]
      simp

lemma writeRun_callbackErrs (chunks : List String) :
    ∀ resps : List ChunkResp, resps.length = chunks.length →
      (writeRun chunks resps).callbackErrs =
        (resps.filter (fun c => c.err)).length := by
  induction chunks with
  | nil =>
    intro resps h
    cases resps with
    | nil => rfl
    | cons r rs => simp at h
  | cons c cs ih =>
    intro resps h
    cases resps with
    | nil => simp at h
    | cons r rs =>
      simp only [List.length_cons] at h
      have heq : (writeRun (c :: cs) (r :: rs)).callbackErrs =
          (writeRun cs rs).callbackErrs + (if r.err then 1 else 0) := rfl
      rw [heq, ih rs (by omega)]
      cases hre : r.err <;> simp [List.filter_cons, hre]

/-- C1: for every invocation of `runStatement` in which Prepare
succeeds, finalize is called on the prepared statement exactly once
before the invocation returns, on every exit path (normal cursor
exhaustion, a row or query error, interruption), and finalize is never
called when Prepare fails.  Exactly once is stated on the event trace
(one `finalizeCall` event, and it is the last event before returning),
and on the call counter. -/
theorem runStatement_finalize_exactly_once :
    ∀ (env : StmtEnv) (tr : List Ev) (r : RunResult),
      runStatementT env = some (tr, r) →
      r.finalizeCalls = (if env.prepare = none then 1 else 0) ∧
      countEv Ev.finalizeCall tr = (if env.prepare = none then 1 else 0) ∧
      lastEv tr = (if env.prepare = none then some Ev.finalizeCall else none) := by
  intro env tr r h
  cases hp : env.prepare with
  | some e =>
    simp only [runStatementT, hp, Option.some.injEq, Prod.mk.injEq] at h
    obtain ⟨htr, hr⟩ := h
    subst htr
    subst hr
    simp [countEv, lastEv]
  | none =>
    simp only [runStatementT, hp] at h
    cases hl : runLoop env.interruptAt 0 env.fetches with
    | none => rw [hl] at h; exact absurd h (by simp)
    | some v =>
      obtain ⟨tr2, outs, pending⟩ := v
      rw [hl] at h
      simp only [Option.some.injEq, Prod.mk.injEq] at h
      obtain ⟨htr, hr⟩ := h
      subst htr
      subst hr
      have hnofin : Ev.finalizeCall ∉ tr2 :=
        runLoop_no_finalize _ _ _ _ _ _ hl
      refine ⟨by simp, ?_, ?_⟩
      · rw [if_pos rfl]
        simp only [countEv, List.cons_append, List.append_eq]
        rw [countEv_append, countEv_notin Ev.finalizeCall tr2 hnofin]
        simp [countEv]
      · rw [if_pos rfl]
        exact lastEv_concat Ev.finalizeCall (Ev.fetchIssued 0 :: tr2)

/-- C1 witness: a concrete run (empty cursor) evaluated end to end. -/
theorem runStatement_finalize_exactly_once_witness :
    (({ outputLines := [], finalizeCalls := 1, result := none } : RunResult).finalizeCalls
        = (if (⟨none, [FetchResult.done], none, none⟩ : StmtEnv).prepare = none then 1 else 0)) ∧
    (countEv Ev.finalizeCall [Ev.fetchIssued 0, Ev.finalizeCall]
        = (if (⟨none, [FetchResult.done], none, none⟩ : StmtEnv).prepare = none then 1 else 0)) ∧
    (lastEv [Ev.fetchIssued 0, Ev.finalizeCall]
        = (if (⟨none, [FetchResult.done], none, none⟩ : StmtEnv).prepare = none
           then some Ev.finalizeCall else none)) :=
  runStatement_finalize_exactly_once ⟨none, [FetchResult.done], none, none⟩
    [Ev.fetchIssued 0, Ev.finalizeCall]
    { outputLines := [], finalizeCalls := 1, result := none } (by decide)

/-- C2: a statement interrupted at the race following the k-th of N
delivered rows writes exactly k result lines to the output sink,
finalizes exactly once, rejects with the interruption, and the main
loop catches it, writes one diagnostic to the error sink and goes on
processing the remaining input events. -/
theorem runStatement_interrupt_after_k_rows :
    ∀ (rows : List Row) (k : Nat) (s : String) (rest : List LoopEvent),
      k ≤ rows.length → isBlankLine s = false →
      runStatement (interruptedEnv rows k) =
        some { outputLines := (rows.take k).map rowLine, finalizeCalls := 1,
               result := some RunError.interrupted } ∧
      startLoop (LoopEvent.line s (interruptedEnv rows k) :: rest) =
        (startLoop rest).map fun q =>
          ((rows.take k).map rowLine ++ q.1,
           (inspectError RunError.interrupted ++ "\n") :: q.2) := by
  intro rows k s rest hk hs
  refine ⟨runStatement_interruptedEnv rows k hk, ?_⟩
  obtain ⟨tr, htr⟩ := runStatementT_interruptedEnv rows k hk
  exact startLoop_line_error s _ rest tr _ RunError.interrupted hs htr rfl

/-- C2 witness: two rows available, interruption after the first. -/
theorem runStatement_interrupt_after_k_rows_witness :
    runStatement (interruptedEnv [[("x", JValue.jint 1)], [("y", JValue.jint 2)]] 1) =
      some { outputLines :=
               (([[("x", JValue.jint 1)], [("y", JValue.jint 2)]] : List Row).take 1).map rowLine,
             finalizeCalls := 1, result := some RunError.interrupted } ∧
    startLoop (LoopEvent.line "select 1"
        (interruptedEnv [[("x", JValue.jint 1)], [("y", JValue.jint 2)]] 1) :: [LoopEvent.eof]) =
      (startLoop [LoopEvent.eof]).map fun q =>
        ((([[("x", JValue.jint 1)], [("y", JValue.jint 2)]] : List Row).take 1).map rowLine ++ q.1,
         (inspectError RunError.interrupted ++ "\n") :: q.2) :=
  runStatement_interrupt_after_k_rows
    [[("x", JValue.jint 1)], [("y", JValue.jint 2)]] 1 "select 1" [LoopEvent.eof]
    (by decide) (by decide)

/-- C3 counterexample: two interrupts fired in quick succession while
the loop is idle, both before the loop's continuation runs (e.g. two
SIGINT deliveries in one synchronous batch, or the second arriving while
the first diagnostic is still being written): the second fire rejects a
slot nobody ever awaits and only one diagnostic line is produced, not
two — refuting the claim's "each is observed independently". -/
theorem interrupter_double_fire_cex :
    (runIdle idleInit
      [IdleStep.fire, IdleStep.fire, IdleStep.loopResume, IdleStep.loopResume]).diags = 1 ∧
    ¬ (runIdle idleInit
      [IdleStep.fire, IdleStep.fire, IdleStep.loopResume, IdleStep.loopResume]).diags = 2 := by
  decide

/-- C3 amended: firing does atomically reject the current slot and
install a fresh unresolved one — successive fires always reject distinct
slots — but a fire is observed (produces a diagnostic) only if the loop
is awaiting the rejected slot at that moment: two fires with a loop
re-await in between yield two diagnostic lines, while two fires both
arriving before the loop resumes yield exactly one. -/
theorem interrupter_rearm_amended :
    (∀ s : InterrupterState,
      (interrupt s).fired = s.fired ++ [s.currentSlot] ∧
      (interrupt s).currentSlot = s.currentSlot + 1 ∧
      ((∀ x ∈ s.fired, x < s.currentSlot) →
        (interrupt s).currentSlot ∉ (interrupt s).fired)) ∧
    (∀ s : InterrupterState,
      (interrupt (interrupt s)).fired =
        s.fired ++ [s.currentSlot, s.currentSlot + 1]) ∧
    (runIdle idleInit
      [IdleStep.fire, IdleStep.loopResume, IdleStep.fire, IdleStep.loopResume]).diags = 2 ∧
    (runIdle idleInit
      [IdleStep.fire, IdleStep.fire, IdleStep.loopResume, IdleStep.loopResume]).diags = 1 := by
  refine ⟨?_, ?_, by decide, by decide⟩
  · intro s
    refine ⟨rfl, rfl, ?_⟩
    intro hwf hmem
    simp only [interrupt] at hmem
    rcases List.mem_append.1 hmem with h1 | h1
    · exact absurd (hwf _ h1) (by omega)
    · simp at h1
  · intro s
    simp [interrupt]

/-- C3 amended witness: for the fresh interrupter, the slot installed by
a fire is not among the rejected slots. -/
theorem interrupter_rearm_amended_witness :
    (interrupt interrupterInit).currentSlot ∉ (interrupt interrupterInit).fired :=
  (interrupter_rearm_amended.1 interrupterInit).2.2 (by decide)

/-- C4: no recoverable failure terminates the main loop.  A session
terminates only when end-of-input occurs among its input events; an
interruption of the line read, and a failed statement (preparation
error, query error or interruption), are each confined to one
iteration: the loop writes one formatted diagnostic to the error sink
and continues with the remaining events unchanged. -/
theorem main_loop_errors_never_stop :
    (∀ (events : List LoopEvent) (p : List String × List String),
      startLoop events = some p → LoopEvent.eof ∈ events) ∧
    (∀ rest : List LoopEvent,
      startLoop (LoopEvent.interruptedAtRead :: rest) =
        (startLoop rest).map fun q =>
          (q.1, (inspectError RunError.interrupted ++ "\n") :: q.2)) ∧
    (∀ (s : String) (stmt : StmtEnv) (rest : List LoopEvent)
        (tr : List Ev) (r : RunResult) (err : RunError),
      isBlankLine s = false → runStatementT stmt = some (tr, r) → r.result = some err →
      startLoop (LoopEvent.line s stmt :: rest) =
        (startLoop rest).map fun q =>
          (r.outputLines ++ q.1, (inspectError err ++ "\n") :: q.2)) := by
  refine ⟨fun events p h => startLoop_some_eof events p h, fun rest => rfl, ?_⟩
  intro s stmt rest tr r err hs hrs hres
  exact startLoop_line_error s stmt rest tr r err hs hrs hres

/-- C4 witness: a failed preparation followed by end-of-input. -/
theorem main_loop_errors_never_stop_witness :
    LoopEvent.eof ∈ [LoopEvent.eof] ∧
    startLoop (LoopEvent.interruptedAtRead :: [LoopEvent.eof]) =
      (startLoop [LoopEvent.eof]).map (fun q =>
        (q.1, (inspectError RunError.interrupted ++ "\n") :: q.2)) ∧
    startLoop (LoopEvent.line "bad sql" prepFailEnv :: [LoopEvent.eof]) =
      (startLoop [LoopEvent.eof]).map (fun q =>
        (({ outputLines := [], finalizeCalls := 0,
            result := some (RunError.prepareError "SQLITE_ERROR: near bad: syntax error") } : RunResult).outputLines ++ q.1,
         (inspectError (RunError.prepareError "SQLITE_ERROR: near bad: syntax error") ++ "\n") :: q.2)) :=
  ⟨main_loop_errors_never_stop.1 [LoopEvent.eof] ([], []) (by decide),
   main_loop_errors_never_stop.2.1 [LoopEvent.eof],
   main_loop_errors_never_stop.2.2 "bad sql" prepFailEnv [LoopEvent.eof] []
     { outputLines := [], finalizeCalls := 0,
       result := some (RunError.prepareError "SQLITE_ERROR: near bad: syntax error") }
     (RunError.prepareError "SQLITE_ERROR: near bad: syntax error")
     (by decide) (by decide) (by decide)⟩

/-- C5 counterexample: with a query error in flight and a failing
finalize, the invocation rejects with the finalize failure, not with
the original query error — the `await` of the rejected finalize promise
in the finally block replaces the in-flight error, so the original
cause does not take precedence. -/
theorem finalize_error_precedence_cex :
    runStatement rowErrorFinalizeErrorEnv =
      some { outputLines := [], finalizeCalls := 1,
             result := some (RunError.finalizeError "SQLITE_MISUSE") } ∧
    runStatement rowErrorFinalizeErrorEnv ≠
      some { outputLines := [], finalizeCalls := 1,
             result := some (RunError.queryError "SQLITE_ERROR") } := by
  decide

/-- C5 amended: when finalize fails, the finalize failure replaces any
in-flight interruption or row error as the error propagated to the
caller; the original cause is suppressed, not reported (no secondary
reporting exists).  Finalize is still called exactly once. -/
theorem finalize_error_replaces_pending :
    ∀ (fetches : List FetchResult) (intr : Option Nat) (e : String)
      (r : RunResult),
      runStatement { prepare := none, fetches := fetches, interruptAt := intr,
                     finalizeError := some e } = some r →
      r.result = some (RunError.finalizeError e) ∧ r.finalizeCalls = 1 := by
  intro fetches intr e r h
  simp only [runStatement, runStatementT] at h
  cases hl : runLoop intr 0 fetches with
  | none => rw [hl] at h; exact absurd h (by simp)
  | some v =>
    obtain ⟨tr, outs, pending⟩ := v
    rw [hl] at h
    simp only [Option.map_some', Option.some.injEq] at h
    subst h
    exact ⟨rfl, rfl⟩

/-- C5 amended witness: the concrete run with a query error in flight
and a finalize failure. -/
theorem finalize_error_replaces_pending_witness :
    ({ outputLines := [], finalizeCalls := 1,
       result := some (RunError.finalizeError "SQLITE_MISUSE") } : RunResult).result =
      some (RunError.finalizeError "SQLITE_MISUSE") ∧
    ({ outputLines := [], finalizeCalls := 1,
       result := some (RunError.finalizeError "SQLITE_MISUSE") } : RunResult).finalizeCalls = 1 :=
  finalize_error_replaces_pending [FetchResult.fetchError "SQLITE_ERROR"] none "SQLITE_MISUSE"
    { outputLines := [], finalizeCalls := 1,
      result := some (RunError.finalizeError "SQLITE_MISUSE") } (by decide)

/-- C6 (code bug): end-of-input is not permanent.  After the medium
closed and the first `next()` returned the end-of-input marker, the
source's `done` flag is still false — it is declared and checked but
never assigned — so a second `next()` does not immediately return the
marker: it re-invokes the medium (prompt and resume) and blocks on a
resolver that will never be called. -/
theorem readline_iterator_eoi_not_permanent :
    (iterNext iterAfterClose).1 = NextResult.eoi ∧
    (iterNext iterAfterClose).2.done = false ∧
    (iterNext (iterNext iterAfterClose).2).1 = NextResult.blocked ∧
    (iterNext (iterNext iterAfterClose).2).1 ≠ NextResult.eoi ∧
    (iterNext (iterNext iterAfterClose).2).2.resumeCount =
      (iterNext iterAfterClose).2.resumeCount + 1 := by
  decide

/-- The event trace of a one-row statement. -/
def oneRowTrace : List Ev :=
  [Ev.fetchIssued 0, Ev.rowDelivered 0, Ev.fetchIssued 1,
   Ev.writeStart 0, Ev.writeEnd 0, Ev.finalizeCall]

/-- C7 counterexample: in the run of a one-row statement, the fetch of
row 1 is issued strictly before row 0 is handed to the writer — the
source executes `nextRow = getRow()` before `await write(...)` — so the
next row fetch is not issued only after the previous row has been fully
handed to the writer. -/
theorem prefetch_issue_order_cex :
    (runStatementT (plainEnv [[("x", JValue.jint 1)]])).map Prod.fst =
      some oneRowTrace ∧
    evBefore oneRowTrace (Ev.fetchIssued 1) (Ev.writeStart 0) = true ∧
    evBefore oneRowTrace (Ev.writeEnd 0) (Ev.fetchIssued 1) = false := by
  decide

/-- C7 amended: rows are written in exactly the order the storage
collaborator produces them and output is never reordered, but the next
row fetch is issued immediately when the previous row is delivered,
before that row is handed to the writer, so the fetch overlaps the
previous row's write.  The full run equals the canonical trace whose
per-row block is delivery, issue of the next fetch, then the write of
the delivered row, and whose output is the rows in delivery order. -/
theorem rows_order_prefetch_amended :
    ∀ rows : List Row,
      runStatementT (plainEnv rows) =
        some (Ev.fetchIssued 0 :: streamTrace 0 rows ++ [Ev.finalizeCall],
              { outputLines := rows.map rowLine, finalizeCalls := 1,
                result := none }) :=
  runStatementT_plainEnv

/-- C8: a statement that succeeds with N rows writes exactly N output
lines, each the JSON serialization of one row followed by a newline, in
the engine's delivery order; in particular a statement delivering the
single row with column x = 1 (the `SELECT 1 AS x;` scenario) produces
the single output line with the serialized record of x = 1. -/
theorem rows_output_lines :
    (∀ rows : List Row,
      runStatement (plainEnv rows) =
        some { outputLines := rows.map rowLine, finalizeCalls := 1,
               result := none }) ∧
    runStatement (plainEnv [[("x", JValue.jint 1)]]) =
      some { outputLines := ["\x7b\"x\":1\x7d\n"], finalizeCalls := 1,
             result := none } := by
  constructor
  · intro rows
    simp [runStatement, runStatementT_plainEnv]
  · decide

/-- C9 counterexample: in the second revision of `start`, the finally
block builds the close promise without awaiting it, so `start` returns
before the close completes — the close does not complete before the
process-level operation completes. -/
theorem close_not_awaited_rev2_cex :
    startTraceRev2 [LoopEvent.eof] = some startShutdownRev2 ∧
    evBefore startShutdownRev2 SEv.closeCompleted SEv.startReturned = false ∧
    evBefore startShutdownRev2 SEv.startReturned SEv.closeCompleted = true := by
  decide

/-- C9 amended: on every exit of the main loop the storage connection
close is issued exactly once, before `start` completes; in the first
revision the close is awaited and completes before `start` completes,
but in the second revision it is not awaited, and `start` completes
before the close does. -/
theorem close_exactly_once_amended :
    ∀ (events : List LoopEvent) (p : List String × List String),
      startLoop events = some p →
      (startTraceRev1 events = some startShutdownRev1 ∧
       countSEv SEv.closeIssued startShutdownRev1 = 1 ∧
       evBefore startShutdownRev1 SEv.closeIssued SEv.startReturned = true ∧
       evBefore startShutdownRev1 SEv.closeCompleted SEv.startReturned = true) ∧
      (startTraceRev2 events = some startShutdownRev2 ∧
       countSEv SEv.closeIssued startShutdownRev2 = 1 ∧
       evBefore startShutdownRev2 SEv.closeIssued SEv.startReturned = true ∧
       evBefore startShutdownRev2 SEv.startReturned SEv.closeCompleted = true) := by
  intro events p h
  refine ⟨⟨?_, by decide, by decide, by decide⟩,
          ⟨?_, by decide, by decide, by decide⟩⟩
  · simp [startTraceRev1, h]
  · simp [startTraceRev2, h]

/-- C9 amended witness: the session that sees end-of-input at once. -/
theorem close_exactly_once_amended_witness :
    (startTraceRev1 [LoopEvent.eof] = some startShutdownRev1 ∧
     countSEv SEv.closeIssued startShutdownRev1 = 1 ∧
     evBefore startShutdownRev1 SEv.closeIssued SEv.startReturned = true ∧
     evBefore startShutdownRev1 SEv.closeCompleted SEv.startReturned = true) ∧
    (startTraceRev2 [LoopEvent.eof] = some startShutdownRev2 ∧
     countSEv SEv.closeIssued startShutdownRev2 = 1 ∧
     evBefore startShutdownRev2 SEv.closeIssued SEv.startReturned = true ∧
     evBefore startShutdownRev2 SEv.startReturned SEv.closeCompleted = true) :=
  close_exactly_once_amended [LoopEvent.eof] ([], []) (by decide)

/-- C10: `write` itself never rejects: it resolves after all chunks are
submitted, suspending on backpressure between chunks, and a sink error
is delivered only through the per-chunk callback; the callback every
caller installs fires the interrupter exactly on error, and an
interrupt fired that way is observed at the next interruptible
suspension point (the next race the loop awaits). -/
theorem write_never_rejects :
    ∀ (chunks : List String) (resps : List ChunkResp),
      resps.length = chunks.length →
      (writeRun chunks resps).rejected = false ∧
      (writeRun chunks resps).submitted = chunks.length ∧
      (writeRun chunks resps).callbackErrs =
        (resps.filter (fun c => c.err)).length ∧
      (∀ s : InterrupterState, writeErrCallback false s = s) ∧
      (∀ s : InterrupterState, writeErrCallback true s = interrupt s) ∧
      (∀ st : IdleState, st.awaiting = st.intr.currentSlot →
        (idleStep { st with intr := writeErrCallback true st.intr }
          IdleStep.loopResume).diags = st.diags + 1) := by
  intro chunks resps hlen
  refine ⟨writeRun_rejected chunks resps, writeRun_submitted chunks resps hlen,
    writeRun_callbackErrs chunks resps hlen, fun s => rfl, fun s => rfl, ?_⟩
  intro st hst
  have hmem : st.awaiting ∈ (interrupt st.intr).fired := by
    rw [hst]
    simp [interrupt]
  simp [idleStep, writeErrCallback, hmem]

/-- C10 witness: the two chunks of one row line, the first backpressured,
the second failing; plus the callback firing observed by the next race. -/
theorem write_never_rejects_witness :
    (writeRun ["\x7b\"x\":1\x7d", "\n"]
      [⟨false, false⟩, ⟨true, true⟩]).rejected = false ∧
    (writeRun ["\x7b\"x\":1\x7d", "\n"]
      [⟨false, false⟩, ⟨true, true⟩]).submitted = 2 ∧
    (writeRun ["\x7b\"x\":1\x7d", "\n"]
      [⟨false, false⟩, ⟨true, true⟩]).callbackErrs = 1 ∧
    writeErrCallback false interrupterInit = interrupterInit ∧
    writeErrCallback true interrupterInit = interrupt interrupterInit ∧
    (idleStep { idleInit with intr := writeErrCallback true idleInit.intr }
      IdleStep.loopResume).diags = idleInit.diags + 1 := by
  have h := write_never_rejects ["\x7b\"x\":1\x7d", "\n"]
    [⟨false, false⟩, ⟨true, true⟩] (by decide)
  exact ⟨h.1, by rw [h.2.1]; rfl, by rw [h.2.2.1]; rfl,
    h.2.2.2.1 interrupterInit, h.2.2.2.2.1 interrupterInit,
    h.2.2.2.2.2 idleInit rfl⟩
